import Mathlib

/-!
Shallow embedding of the `readwisereader` Go client library
(package `readwisereader`, single source file).

The embedding covers:
  * the data model (`Page`, `Document`, `ListResponse` and their wire-format
    counterparts `listResponse`, `document`),
  * `strconv.Atoi` as used by `Client.List` to parse the `Retry-After` header,
  * `Client.List` — the single-page fetcher's classification of an HTTP
    response (429 / non-200 / 200-with-body),
  * `Client.ListPaginate` — the pagination loop with its rate-limit
    sleep-and-retry policy and cancellation checks, embedded as an interpreter
    over an oracle describing the outcome of each issued request and the
    cancellation state at each decision point,
  * `dateValue.UnmarshalJSON` — the flexible published-date decoder, together
    with the fragment of Go `time` it uses (`time.UnixMilli`,
    `time.Parse "2006-01-02"`, the zero `time.Time`).

Go `time.Time` values are modelled by their UTC instant in milliseconds since
the Unix epoch (every value this library constructs is a whole number of
milliseconds); the zero `time.Time` is 0001-01-01T00:00:00 UTC.
-/

/-- A JSON value as produced by Go's `json.Unmarshal` into `interface{}`.
JSON numbers are modelled at integer precision (Go decodes them to `float64`
and the date decoder immediately truncates with `int64(value)`; every claim
about the decoder concerns integer inputs). -/
inductive JSONValue where
  | num (n : Int)
  | str (s : String)
  | bool (b : Bool)
  | null
  | arr (elems : List JSONValue)
  | obj (fields : List (String × JSONValue))
deriving Repr

/-- The string Go's `%T` verb prints for the dynamic type of each
`interface{}` value produced by `json.Unmarshal`. -/
def JSONValue.goTypeName : JSONValue → String
  | .num _ => "float64"
  | .str _ => "string"
  | .bool _ => "bool"
  | .null => "<nil>"
  | .arr _ => "[]interface \x7b\x7d"
  | .obj _ => "map[string]interface \x7b\x7d"

/-- Go `time.Time`, as the UTC instant in milliseconds since the Unix epoch. -/
structure GoTime where
  unixMilliVal : Int
deriving DecidableEq, Repr

/-- Proleptic-Gregorian leap-year test, as Go's `time.isLeap`. -/
def isLeap (y : Int) : Bool :=
  y % 4 = 0 && (y % 100 ≠ 0 || y % 400 = 0)

/-- Days in a month, as Go's `time.daysIn`. -/
def daysInMonth (y m : Int) : Int :=
  if m = 2 then (if isLeap y then 29 else 28)
  else if m = 4 ∨ m = 6 ∨ m = 9 ∨ m = 11 then 30
  else 31

/-- Days from the Unix epoch (1970-01-01) to the civil date y-m-d,
proleptic Gregorian (the standard days-from-civil computation; Go's
`time` package computes the same instant for a parsed date). -/
def daysFromCivil (y m d : Int) : Int :=
  let yy : Int := if m ≤ 2 then y - 1 else y
  let mp : Int := if m ≤ 2 then m + 9 else m - 3
  365 * yy + Int.fdiv yy 4 - Int.fdiv yy 100 + Int.fdiv yy 400
    + (153 * mp + 2) / 5 + d - 1 - 719468

/-- The zero `time.Time` (0001-01-01T00:00:00 UTC) in Unix milliseconds. -/
def goTimeZero : GoTime := ⟨daysFromCivil 1 1 1 * 86400000⟩

/-- Go `time.Time.IsZero`. -/
def GoTime.IsZero (t : GoTime) : Bool :=
  t.unixMilliVal == goTimeZero.unixMilliVal

/-- Go `time.UnixMilli`. -/
def time.UnixMilli (ms : Int) : GoTime := ⟨ms⟩

/-- Numeric value of a string of decimal digit characters. -/
def digitsVal (cs : List Char) : Nat :=
  cs.foldl (fun acc c => acc * 10 + (c.toNat - 48)) 0

/-- Go `time.Parse` with layout `"2006-01-02"`: exactly four year digits,
a dash, two month digits, a dash, two day digits, nothing else; the month
must lie in 1..12 and the day in 1..daysIn(month, year).  On success the
result is midnight UTC of that date. -/
def time.ParseDate (s : String) : Option GoTime :=
  match s.toList with
  | [y1, y2, y3, y4, c1, m1, m2, c2, d1, d2] =>
    if c1 = '-' ∧ c2 = '-' ∧ ([y1, y2, y3, y4, m1, m2, d1, d2].all Char.isDigit) then
      let y : Int := (digitsVal [y1, y2, y3, y4] : Nat)
      let m : Int := (digitsVal [m1, m2] : Nat)
      let d : Int := (digitsVal [d1, d2] : Nat)
      if 1 ≤ m ∧ m ≤ 12 ∧ 1 ≤ d ∧ d ≤ daysInMonth y m then
        some ⟨daysFromCivil y m d * 86400000⟩
      else none
    else none
  | _ => none

/-- Go `strconv.Atoi`: an optional sign followed by one or more decimal
digits, with the value required to fit in a 64-bit signed integer
(`Atoi` is `ParseInt(s, 10, 0)` with 64-bit `int`); `none` models a
non-nil error. -/
def strconv.Atoi (s : String) : Option Int :=
  let cs := s.toList
  let (neg, ds) : Bool × List Char :=
    match cs with
    | '+' :: rest => (false, rest)
    | '-' :: rest => (true, rest)
    | _ => (false, cs)
  if ds = [] then none
  else if ds.all Char.isDigit then
    let v : Int := if neg then -(digitsVal ds : Int) else (digitsVal ds : Nat)
    if -(2 ^ 63) ≤ v ∧ v < 2 ^ 63 then some v else none
  else none

/-- `type Location string`. -/
def Location := String
deriving instance DecidableEq, Repr for Location

/-- `type Category string`. -/
def Category := String
deriving instance DecidableEq, Repr for Category

/-- The wire-format `document` struct, fields as decoded from JSON.
`published_date` uses the flexible `dateValue` decoder; the other time
fields use the canonical decoding, modelled directly as instants.
`Tags` is `map[string]any`, modelled as its underlying key/value list. -/
structure document where
  ID : String
  URL : String
  SourceURL : String
  Title : String
  Author : String
  Source : String
  Category : Category
  Location : Location
  Tags : List (String × JSONValue)
  SiteName : String
  WordCount : Int
  CreatedAt : GoTime
  UpdatedAt : GoTime
  Notes : String
  PublishedDate : GoTime
  Summary : String
  ImageURL : String
  ParentID : String
  ReadingProgress : Float
  FirstOpenedAt : GoTime
  LastOpenedAt : GoTime
  SavedAt : GoTime
  LastMovedAt : GoTime

/-- The public `Document` struct. -/
structure Document where
  ID : String
  URL : String
  SourceURL : String
  Title : String
  Author : String
  Source : String
  Category : Category
  Location : Location
  Tags : List (String × JSONValue)
  SiteName : String
  WordCount : Int
  CreatedAt : GoTime
  UpdatedAt : GoTime
  Notes : String
  PublishedDate : GoTime
  Summary : String
  ImageURL : String
  ParentID : String
  ReadingProgress : Float
  FirstOpenedAt : GoTime
  LastOpenedAt : GoTime
  SavedAt : GoTime
  LastMovedAt : GoTime

/-- `(dr *document) toDocument()`: field-for-field conversion. -/
def document.toDocument (dr : document) : Document :=
  { ID := dr.ID
    URL := dr.URL
    SourceURL := dr.SourceURL
    Title := dr.Title
    Author := dr.Author
    Source := dr.Source
    Category := dr.Category
    Location := dr.Location
    Tags := dr.Tags
    SiteName := dr.SiteName
    WordCount := dr.WordCount
    CreatedAt := dr.CreatedAt
    UpdatedAt := dr.UpdatedAt
    Notes := dr.Notes
    PublishedDate := dr.PublishedDate
    Summary := dr.Summary
    ImageURL := dr.ImageURL
    ParentID := dr.ParentID
    ReadingProgress := dr.ReadingProgress
    FirstOpenedAt := dr.FirstOpenedAt
    LastOpenedAt := dr.LastOpenedAt
    SavedAt := dr.SavedAt
    LastMovedAt := dr.LastMovedAt }

/-- The public `Page` struct: server-reported total count and the documents
of the current page. -/
structure Page where
  Count : Int
  Results : List Document

/-- The wire-format `listResponse` envelope. -/
structure listResponse where
  Count : Int
  NextPageCursor : String
  Results : List document

/-- The public `ListResponse`: next-page cursor plus the embedded `Page`. -/
structure ListResponse where
  NextPageCursor : String
  page : Page

/-- `(lr *listResponse) toListResponse()`: builds the results slice with the
source's append loop (`results = append(results, dr.toDocument())` over
`lr.Results` in order), then wraps count and cursor unchanged. -/
def listResponse.toListResponse (lr : listResponse) : ListResponse :=
  let results := lr.Results.foldl (fun acc dr => acc ++ [dr.toDocument]) []
  { NextPageCursor := lr.NextPageCursor
    page := { Count := lr.Count, Results := results } }

/-- The error values this library can produce or observe.  `rateLimited`
is `*ErrorRateLimited` with its `RetryAfter` duration in nanoseconds;
`canceled` and `deadlineExceeded` are the two possible non-nil results of
`ctx.Err()`; `otherError` covers transport errors returned by `c.list`. -/
inductive GoError where
  | rateLimited (retryAfterNs : Int)
  | invalidRetryAfter (raw : String)
  | unexpectedStatus (code : Nat)
  | decodeError
  | invalidTimeValueType (goType : String)
  | timeParseError (value : String)
  | canceled
  | deadlineExceeded
  | otherError (msg : String)
deriving DecidableEq, Repr

/-- `(tv *dateValue) UnmarshalJSON`: a JSON number becomes
`time.UnixMilli(int64(v))`, a string is parsed with layout `"2006-01-02"`
(propagating the parse error), `null` becomes the zero `time.Time`, and any
other JSON type is rejected with `invalid time value type: %T`. -/
def dateValue.UnmarshalJSON (v : JSONValue) : Except GoError GoTime :=
  match v with
  | .num n => .ok (time.UnixMilli n)
  | .str s =>
    match time.ParseDate s with
    | some t => .ok t
    | none => .error (.timeParseError s)
  | .null => .ok goTimeZero
  | other => .error (.invalidTimeValueType other.goTypeName)

/-- The observable ingredients of one HTTP response to `c.list`:
status code, the `Retry-After` header value (`""` when absent), and the
result of decoding the body as a `listResponse` (`none` models a decode
error). -/
structure HTTPResponse where
  statusCode : Nat
  retryAfterHeader : String
  body : Option listResponse

/-- Two's-complement wrap of an integer to 64 bits: the result of a Go
`int64` operation whose mathematical value is x (Go integer overflow is
defined to wrap). -/
def int64Wrap (x : Int) : Int :=
  (x + 2 ^ 63) % 2 ^ 64 - 2 ^ 63

/-- `(c *Client) List`: classify one HTTP response.  On 429, parse
`Retry-After` with `strconv.Atoi`; a parse failure is the
`invalid retry-after header` error carrying the raw value, success is
`*ErrorRateLimited` with `time.Duration(seconds) * time.Second` —
`time.Duration` is int64 nanoseconds, so the product wraps at 64 bits.
Any other non-200 status is the `unexpected status code` error.  On 200,
a body decode failure propagates; otherwise the decoded envelope is
converted with `toListResponse`. -/
def Client.List (resp : HTTPResponse) : Except GoError ListResponse :=
  if resp.statusCode = 429 then
    match strconv.Atoi resp.retryAfterHeader with
    | none => .error (.invalidRetryAfter resp.retryAfterHeader)
    | some seconds => .error (.rateLimited (int64Wrap (seconds * 1000000000)))
  else if resp.statusCode ≠ 200 then
    .error (.unexpectedStatus resp.statusCode)
  else
    match resp.body with
    | none => .error .decodeError
    | some lr => .ok lr.toListResponse

/-- The oracle for one iteration of the `ListPaginate` loop: the outcome of
the `c.List` call it issues, and — relevant only when that outcome is
`*ErrorRateLimited` — the cancellation state at the two points the loop
inspects it: `cancelledBeforeWait` is whether `ctx.Err() != nil` just after
`errors.As` matches, `cancelledDuringWait` is whether the
`select` observes `ctx.Done()` before the `time.After(rle.RetryAfter)`
timer fires, and `ctxErr` is the value `ctx.Err()` returns then. -/
structure Attempt where
  result : Except GoError ListResponse
  cancelledBeforeWait : Bool
  cancelledDuringWait : Bool
  ctxErr : GoError

/-- A list of per-iteration oracles (named so that `Client.ListPaginate`'s
signature does not capture `List` inside the `Client` namespace). -/
abbrev AttemptSeq := List Attempt

/-- One item yielded by the `iter.Seq2[Page, error]` sequence: a page with a
nil error, or a zero page with a non-nil error. -/
inductive Item where
  | page (p : Page)
  | err (e : GoError)

/-- The observable behaviour of one run of the pagination loop:
the cursors of the `c.List` requests it issued in order, the items it
yielded in order, the rate-limit waits (nanoseconds) it slept to completion
in order, and whether the loop returned (`false` means the supplied oracle
ran out while the loop still wanted to fetch). -/
structure Trace where
  requests : List String
  items : List Item
  waits : List Int
  terminated : Bool

/-- `(c *Client) ListPaginate`: the loop body, interpreted against a list of
per-iteration oracles.  Each iteration issues one request at the current
cursor and consumes one `Attempt`.  A rate-limited result first checks
`ctx.Err()`; if non-nil it yields the cancellation error and returns.
Otherwise it waits: cancellation during the wait yields the cancellation
error and returns, a completed wait retries with the same cursor.  Any other
error is yielded and the loop returns.  On success the page is yielded; the
consumer (`yield`'s return value, indexed by how many pages it has been
given) may stop the loop; an empty next-cursor ends the loop; otherwise the
cursor advances. -/
def Client.ListPaginate : AttemptSeq → (Nat → Bool) → String → Nat → Trace
  | [], _, _, _ => ⟨[], [], [], false⟩
  | a :: rest, yield, cursor, pageIdx =>
    match a.result with
    | .error (GoError.rateLimited d) =>
      if a.cancelledBeforeWait then
        ⟨[cursor], [Item.err a.ctxErr], [], true⟩
      else if a.cancelledDuringWait then
        ⟨[cursor], [Item.err a.ctxErr], [], true⟩
      else
        let t := Client.ListPaginate rest yield cursor pageIdx
        ⟨cursor :: t.requests, t.items, d :: t.waits, t.terminated⟩
    | .error e => ⟨[cursor], [Item.err e], [], true⟩
    | .ok resp =>
      if yield pageIdx then
        if resp.NextPageCursor = "" then
          ⟨[cursor], [Item.page resp.page], [], true⟩
        else
          let t := Client.ListPaginate rest yield resp.NextPageCursor (pageIdx + 1)
          ⟨cursor :: t.requests, Item.page resp.page :: t.items, t.waits, t.terminated⟩
      else ⟨[cursor], [Item.page resp.page], [], true⟩

/-- An `Attempt` for a `c.List` call that succeeds (cancellation state
irrelevant on that path). -/
def okAttempt (resp : ListResponse) : Attempt :=
  ⟨.ok resp, false, false, GoError.canceled⟩

/-- The next-cursors of `resps` form a chain: every response but the last
has a non-empty next-cursor, and the last has an empty one.  (Empty
sequences have no terminating empty cursor, so they are excluded.) -/
def cursorChain : List ListResponse → Prop
  | [] => False
  | [r] => r.NextPageCursor = ""
  | r :: s :: rest => r.NextPageCursor ≠ "" ∧ cursorChain (s :: rest)

/-- An `Attempt` for a rate-limited `c.List` call where the caller is not
cancelled: the wait completes and the loop retries. -/
def rateLimitedAttempt (d : Int) : Attempt :=
  ⟨.error (GoError.rateLimited d), false, false, GoError.canceled⟩

/-- A concrete page response with a non-empty next-cursor (for witnesses). -/
def samplePageA : ListResponse := ⟨"next", ⟨2, []⟩⟩

/-- A concrete page response with an empty next-cursor (for witnesses). -/
def samplePageB : ListResponse := ⟨"", ⟨2, []⟩⟩

/-- Appending one converted document at a time (the source's append loop)
is mapping the conversion over the list. -/
theorem foldl_append_eq_map (ds : List document) (acc : List Document) :
    ds.foldl (fun a dr => a ++ [dr.toDocument]) acc
      = acc ++ ds.map document.toDocument := by
  induction ds generalizing acc with
  | nil => simp
  | cons d rest ih => simp [ih]

/-- One loop iteration on a successful fetch whose page the consumer accepts
and whose next-cursor is non-empty: yield the page and continue at the new
cursor. -/
theorem listPaginate_ok_step (resp : ListResponse) (rest : AttemptSeq)
    (yield : Nat → Bool) (c : String) (idx : Nat)
    (hy : yield idx = true) (hne : resp.NextPageCursor ≠ "") :
    Client.ListPaginate (okAttempt resp :: rest) yield c idx =
      ⟨c :: (Client.ListPaginate rest yield resp.NextPageCursor (idx + 1)).requests,
       Item.page resp.page
         :: (Client.ListPaginate rest yield resp.NextPageCursor (idx + 1)).items,
       (Client.ListPaginate rest yield resp.NextPageCursor (idx + 1)).waits,
       (Client.ListPaginate rest yield resp.NextPageCursor (idx + 1)).terminated⟩ := by
  simp [Client.ListPaginate, okAttempt, hy, hne]

/-- One loop iteration on a successful fetch whose page the consumer accepts
and whose next-cursor is empty: yield the page and return. -/
theorem listPaginate_ok_last (resp : ListResponse) (rest : AttemptSeq)
    (yield : Nat → Bool) (c : String) (idx : Nat)
    (hy : yield idx = true) (hlast : resp.NextPageCursor = "") :
    Client.ListPaginate (okAttempt resp :: rest) yield c idx
      = ⟨[c], [Item.page resp.page], [], true⟩ := by
  simp [Client.ListPaginate, okAttempt, hy, hlast]

/-- One loop iteration on a rate-limited fetch with no cancellation: the wait
completes and the loop retries at the same cursor. -/
theorem listPaginate_rl_step (d : Int) (rest : AttemptSeq)
    (yield : Nat → Bool) (c : String) (idx : Nat) :
    Client.ListPaginate (rateLimitedAttempt d :: rest) yield c idx =
      ⟨c :: (Client.ListPaginate rest yield c idx).requests,
       (Client.ListPaginate rest yield c idx).items,
       d :: (Client.ListPaginate rest yield c idx).waits,
       (Client.ListPaginate rest yield c idx).terminated⟩ := by
  simp [Client.ListPaginate, rateLimitedAttempt]

/-- Claim C1: for every finite sequence of successful fetch results whose
next-cursors form a chain of non-empty values terminated by an empty cursor
(and no errors), `ListPaginate` yields exactly those pages in order and then
terminates, never yielding an error item and never waiting; it issues exactly
one request per page, so no request follows a page with an empty next-cursor. -/
theorem listPaginate_yields_cursor_chain (resps : List ListResponse)
    (c0 : String) (idx : Nat) (h : cursorChain resps) :
    (Client.ListPaginate (resps.map okAttempt) (fun _ => true) c0 idx).items
        = resps.map (fun r => Item.page r.page) ∧
    (Client.ListPaginate (resps.map okAttempt) (fun _ => true) c0 idx).terminated
        = true ∧
    (Client.ListPaginate (resps.map okAttempt) (fun _ => true) c0 idx).requests.length
        = resps.length ∧
    (Client.ListPaginate (resps.map okAttempt) (fun _ => true) c0 idx).waits = [] := by
  induction resps generalizing c0 idx with
  | nil => exact absurd h (by simp [cursorChain])
  | cons r rest ih =>
    cases rest with
    | nil =>
      have hr : r.NextPageCursor = "" := h
      simp only [List.map_cons, List.map_nil]
      rw [listPaginate_ok_last r [] (fun _ => true) c0 idx rfl hr]
      simp
    | cons s rest' =>
      obtain ⟨hne, hchain⟩ := h
      have ht := ih r.NextPageCursor (idx + 1) hchain
      simp only [List.map_cons] at ht ⊢
      rw [listPaginate_ok_step r (okAttempt s :: List.map okAttempt rest')
            (fun _ => true) c0 idx rfl hne]
      exact ⟨by simp [ht.1], by simp [ht.2.1], by simp [ht.2.2.1], by simp [ht.2.2.2]⟩

/-- Claim C1 witness: a two-page chain at concrete inputs. -/
theorem listPaginate_yields_cursor_chain_witness :
    cursorChain [samplePageA, samplePageB] ∧
    (Client.ListPaginate ([samplePageA, samplePageB].map okAttempt)
        (fun _ => true) "" 0).items
      = [samplePageA, samplePageB].map (fun r => Item.page r.page) ∧
    (Client.ListPaginate ([samplePageA, samplePageB].map okAttempt)
        (fun _ => true) "" 0).requests.length = 2 :=
  have hc : cursorChain [samplePageA, samplePageB] := by
    refine ⟨by simp [samplePageA], rfl⟩
  have ht := listPaginate_yields_cursor_chain [samplePageA, samplePageB] "" 0 hc
  ⟨hc, ht.1, ht.2.2.1⟩

/-- Claim C2: any number of rate-limited attempts whose waits complete
without cancellation are each retried at the same cursor — the first n + 1
requests all carry cursor c, with no retry budget — and the eventual success
at that cursor has its page yielded to the consumer as the next item. -/
theorem listPaginate_rate_limit_retries_same_cursor (n : Nat) (d : Int)
    (resp : ListResponse) (rest : AttemptSeq) (yield : Nat → Bool)
    (c : String) (idx : Nat) :
    (Client.ListPaginate
        (List.replicate n (rateLimitedAttempt d) ++ okAttempt resp :: rest)
        yield c idx).requests.take (n + 1) = List.replicate (n + 1) c ∧
    (Client.ListPaginate
        (List.replicate n (rateLimitedAttempt d) ++ okAttempt resp :: rest)
        yield c idx).items.head? = some (Item.page resp.page) ∧
    (Client.ListPaginate
        (List.replicate n (rateLimitedAttempt d) ++ okAttempt resp :: rest)
        yield c idx).waits.take n = List.replicate n d := by
  induction n with
  | zero =>
    by_cases hy : yield idx
    · by_cases hnext : resp.NextPageCursor = ""
      · simp [Client.ListPaginate, okAttempt, hy, hnext]
      · simp [Client.ListPaginate, okAttempt, hy, hnext]
    · simp [Client.ListPaginate, okAttempt, hy]
  | succ m ih =>
    simpa [Client.ListPaginate, rateLimitedAttempt, List.replicate_succ]
      using ⟨ih.1, ih.2.1, ih.2.2⟩

/-- Claim C3: if cancellation occurs while waiting out a rate-limit delay,
the iterator yields exactly one final item carrying the cancellation error
(`ctx.Err()`), terminates, and issues no further request — whatever fetch
outcomes would have followed. -/
theorem listPaginate_cancel_during_wait (d : Int) (e : GoError)
    (rest : AttemptSeq) (yield : Nat → Bool) (c : String) (idx : Nat) :
    Client.ListPaginate (⟨.error (GoError.rateLimited d), false, true, e⟩ :: rest)
        yield c idx
      = ⟨[c], [Item.err e], [], true⟩ := by
  simp [Client.ListPaginate]

/-- Claim C4: if the caller is already cancelled when a rate-limit signal is
received, the iterator yields the cancellation error immediately as the final
item and terminates; no wait is performed (the completed-waits trace is
empty) and no further request is issued. -/
theorem listPaginate_cancelled_before_wait (d : Int) (e : GoError) (b : Bool)
    (rest : AttemptSeq) (yield : Nat → Bool) (c : String) (idx : Nat) :
    Client.ListPaginate (⟨.error (GoError.rateLimited d), true, b, e⟩ :: rest)
        yield c idx
      = ⟨[c], [Item.err e], [], true⟩ := by
  simp [Client.ListPaginate]

/-- An int64 operation whose mathematical value already fits in 64 bits does
not wrap. -/
theorem int64Wrap_eq_of_fits (x : Int) (hlo : -(2 ^ 63) ≤ x) (hhi : x < 2 ^ 63) :
    int64Wrap x = x := by
  unfold int64Wrap
  omega

/-- Claim C5 counterexample: `Retry-After: "9223372037"` parses as the
integer 9223372037 (the model's own `strconv.Atoi` accepts it), yet the
program's `time.Duration(seconds) * time.Second` wraps at int64 and the
signal carries −9223372036709551616 ns, not 9223372037 seconds. -/
theorem list_429_seconds_wrap_counterexample :
    strconv.Atoi "9223372037" = some 9223372037 ∧
    Client.List ⟨429, "9223372037", none⟩
      = .error (GoError.rateLimited (-9223372036709551616)) ∧
    Client.List ⟨429, "9223372037", none⟩
      ≠ .error (GoError.rateLimited (9223372037 * 1000000000)) := by
  refine ⟨by decide, by rfl, ?_⟩
  intro hEq
  rw [show Client.List ⟨429, "9223372037", none⟩
        = .error (GoError.rateLimited (-9223372036709551616)) from rfl] at hEq
  simp only [Except.error.injEq, GoError.rateLimited.injEq] at hEq
  omega

/-- Claim C5 (amended): on an HTTP 429 whose `Retry-After` header does not
parse as an integer, `Client.List` fails with the malformed-rate-limit-header
error carrying the raw header value — which is not a rate-limit signal — and
the iterator surfaces that error as the terminal sequence item without
issuing any further request; on a 429 whose header parses as integer n,
`Client.List` returns the distinguished rate-limit signal carrying the
int64-wrapped product n · 10⁹ nanoseconds, which equals n seconds exactly
when that product fits in int64 (|n| ≤ 9223372036). -/
theorem list_429_retry_after_classification_amended (h : String)
    (body : Option listResponse) (rest : AttemptSeq) (yield : Nat → Bool)
    (c : String) (idx : Nat) (cb cd : Bool) (ce : GoError) :
    (strconv.Atoi h = none →
      Client.List ⟨429, h, body⟩ = .error (GoError.invalidRetryAfter h) ∧
      (∀ d : Int, GoError.invalidRetryAfter h ≠ GoError.rateLimited d) ∧
      Client.ListPaginate
          (⟨.error (GoError.invalidRetryAfter h), cb, cd, ce⟩ :: rest) yield c idx
        = ⟨[c], [Item.err (GoError.invalidRetryAfter h)], [], true⟩) ∧
    (∀ n : Int, strconv.Atoi h = some n →
      Client.List ⟨429, h, body⟩
        = .error (GoError.rateLimited (int64Wrap (n * 1000000000))) ∧
      (-9223372036 ≤ n → n ≤ 9223372036 →
        int64Wrap (n * 1000000000) = n * 1000000000)) := by
  constructor
  · intro hbad
    refine ⟨by simp [Client.List, hbad], by simp, ?_⟩
    simp [Client.ListPaginate]
  · intro n hn
    refine ⟨by simp [Client.List, hn], fun h1 h2 => ?_⟩
    exact int64Wrap_eq_of_fits _ (by omega) (by omega)

/-- Claim C5 (amended) witness: `Retry-After: "abc"` is the malformed-header
error, `Retry-After: "7"` is the 7-second rate-limit signal. -/
theorem list_429_retry_after_classification_amended_witness :
    Client.List ⟨429, "abc", none⟩ = .error (GoError.invalidRetryAfter "abc") ∧
    Client.List ⟨429, "7", none⟩ = .error (GoError.rateLimited (7 * 1000000000)) := by
  constructor
  · exact ((list_429_retry_after_classification_amended "abc" none []
      (fun _ => true) "" 0 false false GoError.canceled).1 (by decide)).1
  · have ht := (list_429_retry_after_classification_amended "7" none []
      (fun _ => true) "" 0 false false GoError.canceled).2 7 (by decide)
    rw [← ht.2 (by decide) (by decide)]
    exact ht.1

/-- Claim C6: if the consumer stops requesting further items after receiving
a page (yield returns false), the iterator terminates immediately: that page
is the last item, and no further request is issued — regardless of whether
the page's next-cursor was non-empty. -/
theorem listPaginate_consumer_stop (resp : ListResponse) (rest : AttemptSeq)
    (yield : Nat → Bool) (c : String) (idx : Nat) (hstop : yield idx = false) :
    Client.ListPaginate (okAttempt resp :: rest) yield c idx
      = ⟨[c], [Item.page resp.page], [], true⟩ := by
  simp [Client.ListPaginate, okAttempt, hstop]

/-- Claim C6 witness: the consumer refuses after the first page, whose
next-cursor is non-empty and whose oracle offers a further fetch. -/
theorem listPaginate_consumer_stop_witness :
    (fun _ : Nat => false) 0 = false ∧
    Client.ListPaginate (okAttempt samplePageA :: [okAttempt samplePageB])
        (fun _ => false) "" 0
      = ⟨[""], [Item.page samplePageA.page], [], true⟩ :=
  ⟨rfl, listPaginate_consumer_stop samplePageA [okAttempt samplePageB]
    (fun _ => false) "" 0 rfl⟩

/-- Claim C7 counterexample: the date string "0001-01-01" matches the
YYYY-MM-DD layout and decodes successfully, yet the produced timestamp is
the zero `time.Time` — not a non-zero timestamp as the claim states. -/
theorem dateValue_decode_zero_date_counterexample :
    dateValue.UnmarshalJSON (JSONValue.str "0001-01-01") = .ok goTimeZero ∧
    goTimeZero.IsZero = true := by
  exact ⟨rfl, rfl⟩

/-- Claim C7 (amended): the published-date decoder maps a JSON integer
number n to the epoch-millisecond timestamp `time.UnixMilli n` — non-zero
exactly when n is not the zero instant's millisecond value — maps a string
that parses under the "2006-01-02" layout to the parsed date's midnight-UTC
timestamp (which is the zero timestamp exactly when the date is
0001-01-01), and maps JSON null to the zero-value timestamp. -/
theorem dateValue_decode_amended (n : Int) (s : String) (t : GoTime)
    (hs : time.ParseDate s = some t) :
    dateValue.UnmarshalJSON (JSONValue.num n) = .ok (time.UnixMilli n) ∧
    ((time.UnixMilli n).IsZero = true ↔ n = goTimeZero.unixMilliVal) ∧
    dateValue.UnmarshalJSON (JSONValue.str s) = .ok t ∧
    dateValue.UnmarshalJSON JSONValue.null = .ok goTimeZero := by
  refine ⟨rfl, ?_, ?_, rfl⟩
  · simp [time.UnixMilli, GoTime.IsZero]
  · simp [dateValue.UnmarshalJSON, hs]

/-- Claim C7 (amended) witness: a concrete epoch-millisecond number and a
concrete date string, both decoding to valid non-zero timestamps, and the
null case. -/
theorem dateValue_decode_amended_witness :
    time.ParseDate "2024-03-05" = some ⟨1709596800000⟩ ∧
    dateValue.UnmarshalJSON (JSONValue.num 1700000000000)
      = .ok (time.UnixMilli 1700000000000) ∧
    dateValue.UnmarshalJSON (JSONValue.str "2024-03-05") = .ok ⟨1709596800000⟩ ∧
    dateValue.UnmarshalJSON JSONValue.null = .ok goTimeZero :=
  have hp : time.ParseDate "2024-03-05" = some ⟨1709596800000⟩ := by decide
  have ht := dateValue_decode_amended 1700000000000 "2024-03-05" ⟨1709596800000⟩ hp
  ⟨hp, ht.1, ht.2.2.1, ht.2.2.2⟩

/-- Claim C8: the published-date decoder rejects a JSON boolean, array or
object with the invalid-time-value-type error (carrying Go's `%T` rendering
of the value's type), and rejects a string that does not match the
YYYY-MM-DD layout with a parse error; in all cases no timestamp is
produced. -/
theorem dateValue_decode_rejects (b : Bool) (xs : List JSONValue)
    (fs : List (String × JSONValue)) (s : String)
    (hs : time.ParseDate s = none) :
    dateValue.UnmarshalJSON (JSONValue.bool b)
      = .error (GoError.invalidTimeValueType "bool") ∧
    dateValue.UnmarshalJSON (JSONValue.arr xs)
      = .error (GoError.invalidTimeValueType "[]interface \x7b\x7d") ∧
    dateValue.UnmarshalJSON (JSONValue.obj fs)
      = .error (GoError.invalidTimeValueType "map[string]interface \x7b\x7d") ∧
    dateValue.UnmarshalJSON (JSONValue.str s) = .error (GoError.timeParseError s) := by
  refine ⟨rfl, rfl, rfl, ?_⟩
  simp [dateValue.UnmarshalJSON, hs]

/-- Claim C8 witness: a boolean, an empty array, an empty object, and a
non-date string. -/
theorem dateValue_decode_rejects_witness :
    time.ParseDate "not-a-date" = none ∧
    dateValue.UnmarshalJSON (JSONValue.bool true)
      = .error (GoError.invalidTimeValueType "bool") ∧
    dateValue.UnmarshalJSON (JSONValue.str "not-a-date")
      = .error (GoError.timeParseError "not-a-date") :=
  have hp : time.ParseDate "not-a-date" = none := by decide
  have ht := dateValue_decode_rejects true [] [] "not-a-date" hp
  ⟨hp, ht.1, ht.2.2.2⟩

/-- Claim C9 counterexample: `Retry-After: "-9223372037"` parses as the
integer −9223372037, yet the program's int64 multiplication wraps and the
signal carries +9223372036709551616 ns — not that integer times one
second. -/
theorem list_429_negative_seconds_wrap_counterexample :
    strconv.Atoi "-9223372037" = some (-9223372037) ∧
    Client.List ⟨429, "-9223372037", none⟩
      = .error (GoError.rateLimited 9223372036709551616) ∧
    Client.List ⟨429, "-9223372037", none⟩
      ≠ .error (GoError.rateLimited ((-9223372037) * 1000000000)) := by
  refine ⟨by decide, by rfl, ?_⟩
  intro hEq
  rw [show Client.List ⟨429, "-9223372037", none⟩
        = .error (GoError.rateLimited 9223372036709551616) from rfl] at hEq
  simp only [Except.error.injEq, GoError.rateLimited.injEq] at hEq
  omega

/-- Claim C9 (amended): any integer-parseable `Retry-After` value on a 429 —
zero and negative integers included — yields the rate-limit signal (not a
terminal error) whose duration is the int64-wrapped product of that integer
and one second, equal to n · 10⁹ ns whenever |n| ≤ 9223372036 (so in
particular for every zero or negative value of that magnitude); the iterator
then retries at the same cursor after recording a wait of exactly that
(possibly non-positive) duration, rather than failing. -/
theorem list_429_integer_retry_after_retries_amended (h : String) (n : Int)
    (hn : strconv.Atoi h = some n) (body : Option listResponse)
    (rest : AttemptSeq) (yield : Nat → Bool) (c : String) (idx : Nat) :
    Client.List ⟨429, h, body⟩
      = .error (GoError.rateLimited (int64Wrap (n * 1000000000))) ∧
    (-9223372036 ≤ n → n ≤ 9223372036 →
      int64Wrap (n * 1000000000) = n * 1000000000) ∧
    Client.ListPaginate
        (rateLimitedAttempt (int64Wrap (n * 1000000000)) :: rest) yield c idx
      = ⟨c :: (Client.ListPaginate rest yield c idx).requests,
         (Client.ListPaginate rest yield c idx).items,
         int64Wrap (n * 1000000000) :: (Client.ListPaginate rest yield c idx).waits,
         (Client.ListPaginate rest yield c idx).terminated⟩ :=
  ⟨by simp [Client.List, hn],
   fun h1 h2 => int64Wrap_eq_of_fits _ (by omega) (by omega),
   listPaginate_rl_step (int64Wrap (n * 1000000000)) rest yield c idx⟩

/-- Claim C9 (amended) witness: `Retry-After: "-3"` produces a
negative-duration rate-limit signal and an immediate retry at the same
cursor. -/
theorem list_429_integer_retry_after_retries_amended_witness :
    strconv.Atoi "-3" = some (-3) ∧
    Client.List ⟨429, "-3", none⟩
      = .error (GoError.rateLimited ((-3) * 1000000000)) ∧
    Client.ListPaginate [rateLimitedAttempt ((-3) * 1000000000)]
        (fun _ => true) "c" 0
      = ⟨["c"], [], [(-3) * 1000000000], false⟩ := by
  have hn : strconv.Atoi "-3" = some (-3) := by decide
  have ht := list_429_integer_retry_after_retries_amended "-3" (-3) hn none []
    (fun _ => true) "c" 0
  have hw := ht.2.1 (by decide) (by decide)
  refine ⟨hn, ?_, ?_⟩
  · rw [← hw]; exact ht.1
  · rw [← hw]
    have h2 := ht.2.2
    simpa [Client.ListPaginate] using h2

/-- Claim C10: converting a decoded wire-format list response to the public
`ListResponse` preserves the number and order of documents — the result has
the same length and its i-th document is the field-for-field conversion of
the i-th wire document — and carries the count and next-cursor unchanged. -/
theorem toListResponse_preserves_documents (lr : listResponse) :
    lr.toListResponse.page.Results.length = lr.Results.length ∧
    (∀ i : Nat, lr.toListResponse.page.Results.get? i
        = (lr.Results.get? i).map document.toDocument) ∧
    lr.toListResponse.page.Count = lr.Count ∧
    lr.toListResponse.NextPageCursor = lr.NextPageCursor := by
  have hres : lr.toListResponse.page.Results = lr.Results.map document.toDocument := by
    simp [listResponse.toListResponse, foldl_append_eq_map]
  exact ⟨by simp [hres], fun i => by simp [hres, List.get?_map],
    by simp [listResponse.toListResponse], by simp [listResponse.toListResponse]⟩
